import Mathlib

/-!
Shallow embedding of the Parquet `FileFormat` implementation
(`datafusion/core/src/datasource/file_format/parquet.rs`): schema inference,
statistics inference (`fetch_statistics` / `summarize_min_max`) and the
`ChunkObjectReader` adapter.

Modelling conventions:
* Rust `i64`/`u64` row, byte and null counts are modelled as `Nat` (the format
  requires them nonnegative and only addition/comparison occurs).
* `f32`/`f64` statistics payloads are modelled by an abstract ordered carrier
  (`Int`); no claim below depends on IEEE-specific numerics, only on the
  dispatch structure around the accumulators.
* A Rust panic (out-of-bounds slice index) is modelled by `Option`: `none`
  means the corresponding Rust code would panic.
* Fallible Rust functions returning `Result` are modelled with `Except`.
-/

namespace Parquet

/-- Arrow data types that occur in this subsystem. -/
inductive DataType where
  | Boolean
  | Int32
  | Int64
  | Float32
  | Float64
  | Utf8
  | Binary
  deriving DecidableEq, Repr

/-- Arrow schema field: name, data type, nullability. -/
structure Field where
  name : String
  data_type : DataType
  nullable : Bool
  deriving DecidableEq, Repr

/-- Arrow schema: ordered sequence of fields. -/
structure Schema where
  fields : List Field
  deriving DecidableEq, Repr

/-- Empty schema (`Schema::empty()`). -/
def Schema.empty : Schema := ⟨[]⟩

/-- Typed scalar value (`datafusion::scalar::ScalarValue`), restricted to the
types this subsystem produces. An inner `none` is the typed null. -/
inductive ScalarValue where
  | boolean (v : Option Bool)
  | int32 (v : Option Int)
  | int64 (v : Option Int)
  | float32 (v : Option Int)
  | float64 (v : Option Int)
  | utf8 (v : Option String)
  | binary (v : Option (List Nat))
  deriving DecidableEq, Repr

/-- Typed null scalar for a data type. -/
def DataType.nullScalar : DataType → ScalarValue
  | .Boolean => .boolean none
  | .Int32 => .int32 none
  | .Int64 => .int64 none
  | .Float32 => .float32 none
  | .Float64 => .float64 none
  | .Utf8 => .utf8 none
  | .Binary => .binary none

/-- Whether a scalar is the typed null. -/
def ScalarValue.isNull : ScalarValue → Bool
  | .boolean none => true
  | .int32 none => true
  | .int64 none => true
  | .float32 none => true
  | .float64 none => true
  | .utf8 none => true
  | .binary none => true
  | _ => false

/-- Combine two optional values, treating `none` (null) as the identity. -/
def optCombine (f : α → α → α) : Option α → Option α → Option α
  | none, y => y
  | x, none => x
  | some a, some b => some (f a b)

/-- Typed pairwise max of two scalars; errors when the types differ
(mirrors the failure of `ScalarValue` min/max arithmetic on a type
mismatch, the fault that `summarize_min_max` guards against). -/
def ScalarValue.maxPair : ScalarValue → ScalarValue → Except Unit ScalarValue
  | .boolean a, .boolean b => .ok (.boolean (optCombine (fun x y => x || y) a b))
  | .int32 a, .int32 b => .ok (.int32 (optCombine max a b))
  | .int64 a, .int64 b => .ok (.int64 (optCombine max a b))
  | .float32 a, .float32 b => .ok (.float32 (optCombine max a b))
  | .float64 a, .float64 b => .ok (.float64 (optCombine max a b))
  | .utf8 a, .utf8 b => .ok (.utf8 (optCombine (fun x y => if x < y then y else x) a b))
  | _, _ => .error ()

/-- Typed pairwise min of two scalars; errors when the types differ. -/
def ScalarValue.minPair : ScalarValue → ScalarValue → Except Unit ScalarValue
  | .boolean a, .boolean b => .ok (.boolean (optCombine (fun x y => x && y) a b))
  | .int32 a, .int32 b => .ok (.int32 (optCombine min a b))
  | .int64 a, .int64 b => .ok (.int64 (optCombine min a b))
  | .float32 a, .float32 b => .ok (.float32 (optCombine min a b))
  | .float64 a, .float64 b => .ok (.float64 (optCombine min a b))
  | .utf8 a, .utf8 b => .ok (.utf8 (optCombine (fun x y => if x < y then x else y) a b))
  | _, _ => .error ()

/-- Modelled from the spec: `MaxAccumulator` (declared in
`physical_plan::expressions`, not under `src/`): a running typed maximum,
updated per value; the update fails on an internal type-conversion fault. -/
structure MaxAccumulator where
  max : ScalarValue
  deriving DecidableEq, Repr

/-- Modelled from the spec: one-value `update_batch` on a `MaxAccumulator`
(the source always passes a single-element array). -/
def MaxAccumulator.update_batch (acc : MaxAccumulator) (v : ScalarValue) :
    Except Unit MaxAccumulator :=
  (ScalarValue.maxPair acc.max v).map (fun m => ⟨m⟩)

/-- Modelled from the spec: `MinAccumulator`, the running typed minimum. -/
structure MinAccumulator where
  min : ScalarValue
  deriving DecidableEq, Repr

/-- Modelled from the spec: one-value `update_batch` on a `MinAccumulator`. -/
def MinAccumulator.update_batch (acc : MinAccumulator) (v : ScalarValue) :
    Except Unit MinAccumulator :=
  (ScalarValue.minPair acc.min v).map (fun m => ⟨m⟩)

/-- Decoded per-column parquet statistics as read from a row group
(`parquet::file::statistics::Statistics`), tagged by the low-level encoded
type. `has_min_max_set` records whether min/max are actually populated. -/
structure TypedStat (α : Type) where
  min : α
  max : α
  null_count : Nat
  has_min_max_set : Bool
  deriving DecidableEq, Repr

/-- Low-level encoded statistics value. The `ByteArray`, `Int96` and
`FixedLenByteArray` variants exist in the source's `_ => {}` arm; their
min/max payloads are never inspected by this module, only `null_count`. -/
inductive ParquetStatistics where
  | Boolean (s : TypedStat Bool)
  | Int32 (s : TypedStat Int)
  | Int64 (s : TypedStat Int)
  | Float (s : TypedStat Int)
  | Double (s : TypedStat Int)
  | Int96 (null_count : Nat)
  | ByteArray (null_count : Nat)
  | FixedLenByteArray (null_count : Nat)
  deriving DecidableEq, Repr

/-- The `null_count()` accessor, available on every variant. -/
def ParquetStatistics.null_count : ParquetStatistics → Nat
  | .Boolean s => s.null_count
  | .Int32 s => s.null_count
  | .Int64 s => s.null_count
  | .Float s => s.null_count
  | .Double s => s.null_count
  | .Int96 n => n
  | .ByteArray n => n
  | .FixedLenByteArray n => n

/-- Shared body of the five typed arms of `summarize_min_max`: read
`max_values[i]` (panic if out of bounds), update or disable it, then the
same for `min_values[i]`. `none` models the Rust panic. -/
def updateMinMax (max_values : List (Option MaxAccumulator))
    (min_values : List (Option MinAccumulator)) (i : Nat)
    (minV maxV : ScalarValue) :
    Option (List (Option MaxAccumulator) × List (Option MinAccumulator)) :=
  match max_values[i]? with
  | none => none
  | some maxSlot =>
    let max_values' :=
      match maxSlot with
      | some acc =>
        match acc.update_batch maxV with
        | .ok acc' => max_values.set i (some acc')
        | .error _ => max_values.set i none
      | none => max_values
    match min_values[i]? with
    | none => none
    | some minSlot =>
      let min_values' :=
        match minSlot with
        | some acc =>
          match acc.update_batch minV with
          | .ok acc' => min_values.set i (some acc')
          | .error _ => min_values.set i none
        | none => min_values
      some (max_values', min_values')

/-- `summarize_min_max` (parquet.rs lines 130-274): dispatch on the encoded
statistics type; update the accumulators at index `i` only when the encoded
type matches the declared type of `fields[i]` and min/max are set. `none`
models the Rust panic on an out-of-bounds index. -/
def summarize_min_max (max_values : List (Option MaxAccumulator))
    (min_values : List (Option MinAccumulator)) (fields : List Field)
    (i : Nat) (stat : ParquetStatistics) :
    Option (List (Option MaxAccumulator) × List (Option MinAccumulator)) :=
  match stat with
  | .Boolean s =>
    match fields[i]? with
    | none => none
    | some f =>
      if f.data_type = DataType.Boolean then
        if s.has_min_max_set then
          updateMinMax max_values min_values i
            (.boolean (some s.min)) (.boolean (some s.max))
        else some (max_values, min_values)
      else some (max_values, min_values)
  | .Int32 s =>
    match fields[i]? with
    | none => none
    | some f =>
      if f.data_type = DataType.Int32 then
        if s.has_min_max_set then
          updateMinMax max_values min_values i
            (.int32 (some s.min)) (.int32 (some s.max))
        else some (max_values, min_values)
      else some (max_values, min_values)
  | .Int64 s =>
    match fields[i]? with
    | none => none
    | some f =>
      if f.data_type = DataType.Int64 then
        if s.has_min_max_set then
          updateMinMax max_values min_values i
            (.int64 (some s.min)) (.int64 (some s.max))
        else some (max_values, min_values)
      else some (max_values, min_values)
  | .Float s =>
    match fields[i]? with
    | none => none
    | some f =>
      if f.data_type = DataType.Float32 then
        if s.has_min_max_set then
          updateMinMax max_values min_values i
            (.float32 (some s.min)) (.float32 (some s.max))
        else some (max_values, min_values)
      else some (max_values, min_values)
  | .Double s =>
    match fields[i]? with
    | none => none
    | some f =>
      if f.data_type = DataType.Float64 then
        if s.has_min_max_set then
          updateMinMax max_values min_values i
            (.float64 (some s.min)) (.float64 (some s.max))
        else some (max_values, min_values)
      else some (max_values, min_values)
  | .Int96 _ => some (max_values, min_values)
  | .ByteArray _ => some (max_values, min_values)
  | .FixedLenByteArray _ => some (max_values, min_values)

/-- Modelled from the spec: `SchemaAdapter::map_column_index` (declared in
`physical_plan::file_format`, not under `src/`): map a logical table column
position to the physical position of the same-named field in a file's
schema, or `none` when absent from that file. -/
def map_column_index (table_schema : Schema) (table_idx : Nat)
    (file_schema : Schema) : Option Nat :=
  match table_schema.fields[table_idx]? with
  | none => none
  | some f => file_schema.fields.findIdx? (fun g => g.name == f.name)

/-- Modelled from the spec: `create_max_min_accs` (declared in `datasource`,
not under `src/`): one max- and one min-accumulator per table column, typed
to that column's declared type, initially holding the typed null. -/
def create_max_min_accs (table_schema : Schema) :
    List (Option MaxAccumulator) × List (Option MinAccumulator) :=
  (table_schema.fields.map (fun f => some ⟨f.data_type.nullScalar⟩),
   table_schema.fields.map (fun f => some ⟨f.data_type.nullScalar⟩))

/-- Per-column statistics (`datafusion::physical_plan::ColumnStatistics`). -/
structure ColumnStatistics where
  null_count : Option Nat
  max_value : Option ScalarValue
  min_value : Option ScalarValue
  distinct_count : Option Nat
  deriving DecidableEq, Repr

/-- Table statistics (`datafusion::physical_plan::Statistics`). -/
structure Statistics where
  num_rows : Option Nat
  total_byte_size : Option Nat
  column_statistics : Option (List ColumnStatistics)
  is_exact : Bool
  deriving DecidableEq, Repr

/-- Evaluation of a final accumulator scalar into an optional bound: an
accumulator left untouched still holds the typed null and yields no bound. -/
def scalarToOption (s : ScalarValue) : Option ScalarValue :=
  if s.isNull then none else some s

/-- Entry `t` of the assembled column statistics. -/
def colStatAt (null_counts : List Nat)
    (max_values : List (Option MaxAccumulator))
    (min_values : List (Option MinAccumulator)) (t : Nat) : ColumnStatistics :=
  { null_count := some (null_counts[t]?.getD 0)
  , max_value := (max_values[t]?.getD none).bind (fun a => scalarToOption a.max)
  , min_value := (min_values[t]?.getD none).bind (fun a => scalarToOption a.min)
  , distinct_count := none }

/-- Modelled from the spec: `get_col_stats` (declared in `datasource`, not
under `src/`): assemble one `ColumnStatistics` entry per logical column from
`null_counts` and the final accumulator states. -/
def get_col_stats (table_schema : Schema) (null_counts : List Nat)
    (max_values : List (Option MaxAccumulator))
    (min_values : List (Option MinAccumulator)) : List ColumnStatistics :=
  (List.range table_schema.fields.length).map
    (colStatAt null_counts max_values min_values)

/-- Column-chunk metadata: optional decoded statistics for one physical
column of one row group. -/
structure ColumnChunkMetadata where
  statistics : Option ParquetStatistics
  deriving DecidableEq, Repr

/-- Row-group metadata as read from the footer. -/
structure RowGroupMetadata where
  num_rows : Nat
  total_byte_size : Nat
  columns : List ColumnChunkMetadata
  deriving DecidableEq, Repr

/-- File-level parquet metadata: the row groups. -/
structure ParquetMetadata where
  row_groups : List RowGroupMetadata
  deriving DecidableEq, Repr

/-- Outcome of the external footer decode (`SerializedFileReader::new` +
`ParquetFileArrowReader`): the file's arrow schema and its metadata. -/
structure DecodedFile where
  file_schema : Schema
  metadata : ParquetMetadata
  deriving DecidableEq, Repr

/-- Decode-layer error (`parquet::errors::ParquetError`), restricted to the
variants this module produces or propagates. -/
inductive ParquetError where
  | General (msg : String)
  | ArrowError (msg : String)
  deriving DecidableEq, Repr

/-- The per-row-group map from physical column index to that column's
`(null_count, statistics)`, built by the `enumerate` loop at lines 320-325
(indices are distinct, so an association list models the hash map). -/
def columnStatsOf (rg : RowGroupMetadata) :
    List (Nat × Nat × ParquetStatistics) :=
  rg.columns.enum.filterMap
    (fun p => p.2.statistics.map (fun s => (p.1, s.null_count, s)))

/-- Lookup in the per-row-group column-statistics map. -/
def lookupStat (m : List (Nat × Nat × ParquetStatistics)) (k : Nat) :
    Option (Nat × ParquetStatistics) :=
  (m.find? (fun e => e.1 == k)).map (fun e => e.2)

/-- Mutable state of one `fetch_statistics` call across row groups. -/
structure StatsState where
  num_rows : Nat
  total_byte_size : Nat
  null_counts : List Nat
  max_values : List (Option MaxAccumulator)
  min_values : List (Option MinAccumulator)
  has_statistics : Bool
  deriving DecidableEq, Repr

/-- Body of the `null_counts.iter_mut().enumerate()` loop (lines 328-345)
for one logical column `table_idx`: resolve the physical position by name;
absent columns charge the running `num_rows` total to the null count;
resolved columns with an entry add the entry's null count and feed
`summarize_min_max`. `none` models a panic inside `summarize_min_max`. -/
def processOneColumn (table_schema file_schema : Schema)
    (column_stats : List (Nat × Nat × ParquetStatistics)) (num_rows : Nat)
    (acc : List Nat × List (Option MaxAccumulator) × List (Option MinAccumulator))
    (table_idx : Nat) :
    Option (List Nat × List (Option MaxAccumulator) × List (Option MinAccumulator)) :=
  match map_column_index table_schema table_idx file_schema with
  | some file_idx =>
    match lookupStat column_stats file_idx with
    | some (null_count, stats) =>
      match summarize_min_max acc.2.1 acc.2.2 table_schema.fields table_idx stats with
      | some (max_values', min_values') =>
        some (acc.1.set table_idx ((acc.1[table_idx]?.getD 0) + null_count),
              max_values', min_values')
      | none => none
    | none => some acc
  | none =>
    some (acc.1.set table_idx ((acc.1[table_idx]?.getD 0) + num_rows),
          acc.2.1, acc.2.2)

/-- Body of the row-group loop (lines 314-347): accumulate row and byte
counts, build the per-row-group statistics map, update the sticky
`has_statistics` flag, and when it is set walk every logical column. -/
def processRowGroup (table_schema file_schema : Schema) (st : StatsState)
    (rg : RowGroupMetadata) : Option StatsState :=
  let num_rows := st.num_rows + rg.num_rows
  let total_byte_size := st.total_byte_size + rg.total_byte_size
  let column_stats := columnStatsOf rg
  let has_statistics := st.has_statistics || rg.columns.any (fun c => c.statistics.isSome)
  if has_statistics then
    match (List.range st.null_counts.length).foldlM
        (processOneColumn table_schema file_schema column_stats num_rows)
        (st.null_counts, st.max_values, st.min_values) with
    | some res =>
      some ⟨num_rows, total_byte_size, res.1, res.2.1, res.2.2, has_statistics⟩
    | none => none
  else
    some ⟨num_rows, total_byte_size, st.null_counts, st.max_values,
          st.min_values, has_statistics⟩

/-- Initial state of one `fetch_statistics` call (lines 301-312). -/
def initState (table_schema : Schema) : StatsState :=
  { num_rows := 0
  , total_byte_size := 0
  , null_counts := List.replicate table_schema.fields.length 0
  , max_values := (create_max_min_accs table_schema).1
  , min_values := (create_max_min_accs table_schema).2
  , has_statistics := false }

/-- Statistics computation for one successfully decoded file (lines
305-367): fold the row groups, then assemble the result. `none` models a
panic, proved unreachable below. -/
def fetchStatsFile (file : DecodedFile) (table_schema : Schema) :
    Option Statistics :=
  match file.metadata.row_groups.foldlM
      (processRowGroup table_schema file.file_schema)
      (initState table_schema) with
  | none => none
  | some final =>
    some { num_rows := some final.num_rows
         , total_byte_size := some final.total_byte_size
         , column_statistics :=
             if final.has_statistics then
               some (get_col_stats table_schema final.null_counts
                 final.max_values final.min_values)
             else none
         , is_exact := true }

/-- `fetch_statistics` (lines 290-368). The external footer decode is the
input: its failure is the sole error path; afterwards the computation is
infallible bookkeeping (the inner `Option` models a panic, proved
unreachable below). -/
def fetch_statistics (footer : Except ParquetError DecodedFile)
    (table_schema : Schema) : Except ParquetError (Option Statistics) :=
  match footer with
  | .error e => .error e
  | .ok file => .ok (fetchStatsFile file table_schema)

/-- Arrow-layer error (schema merge incompatibility). -/
inductive ArrowError where
  | SchemaError (msg : String)
  deriving DecidableEq, Repr

/-- Engine-level error (`DataFusionError`), restricted to the variants this
module produces. -/
inductive DataFusionError where
  | IoError (msg : String)
  | ArrowError (e : ArrowError)
  | ParquetError (e : ParquetError)
  deriving DecidableEq, Repr

/-- Rendering of an engine error, used when wrapping it into a decode-layer
error in `ChunkObjectReader::get_read`. -/
def DataFusionError.toString : DataFusionError → String
  | .IoError msg => "IO error: " ++ msg
  | .ArrowError (.SchemaError msg) => "Arrow error: " ++ msg
  | .ParquetError (.General msg) => "Parquet error: " ++ msg
  | .ParquetError (.ArrowError msg) => "Parquet error: " ++ msg

/-- Modelled from the spec: arrow `Field` merge for two same-named fields;
incompatible (different) data types fail, nullability is reconciled by
disjunction. Folding a field into an accumulated field list keeps
first-seen order and appends unseen names at the end. -/
def mergeFieldInto : List Field → Field → Except ArrowError (List Field)
  | [], f => .ok [f]
  | g :: rest, f =>
    if g.name = f.name then
      if g.data_type = f.data_type then
        .ok ({ g with nullable := g.nullable || f.nullable } :: rest)
      else .error (.SchemaError f.name)
    else
      (mergeFieldInto rest f).map (fun rest' => g :: rest')

/-- Modelled from the spec: arrow `Schema::try_merge` specialised to the
two-schema call at line 96: union-by-name of the next schema's fields into
the accumulated schema. -/
def Schema.try_merge (acc next : Schema) : Except ArrowError Schema :=
  (next.fields.foldlM mergeFieldInto acc.fields).map Schema.mk

/-- One element of the object-reader stream consumed by `infer_schema`: a
stream-level read failure, or a reader whose `fetch_schema` outcome (footer
decode) is given. -/
inductive InferItem where
  | streamErr (msg : String)
  | reader (fetched : Except DataFusionError Schema)
  deriving Repr

/-- One step of the `try_fold` at lines 92-99: a stream error maps to
`DataFusionError::IoError`, a `fetch_schema` failure propagates, and a
decoded schema is merged into the accumulator. -/
def inferStep (acc : Schema) : InferItem → Except DataFusionError Schema
  | .streamErr msg => .error (.IoError msg)
  | .reader (.error e) => .error e
  | .reader (.ok next_schema) =>
    (Schema.try_merge acc next_schema).mapError DataFusionError.ArrowError

/-- `infer_schema` (lines 91-101): fold the readers in encounter order from
the empty schema, short-circuiting on the first error. -/
def infer_schema (readers : List InferItem) : Except DataFusionError Schema :=
  readers.foldlM inferStep Schema.empty

/-- Byte-count metric sink (`metrics::Count`). -/
structure Count where
  value : Nat
  deriving DecidableEq, Repr

/-- `Count::add`. -/
def Count.add (c : Count) (n : Nat) : Count := ⟨c.value + n⟩

/-- Abstract object-storage reader (`dyn ObjectReader`): total length plus a
range read that yields bytes or an I/O failure message. -/
structure ObjectReader where
  length : Nat
  sync_chunk_reader : Nat → Nat → Except String (List Nat)

/-- `ChunkObjectReader` (lines 371-376): the wrapped reader and an optional
byte-count sink. -/
structure ChunkObjectReader where
  object_reader : ObjectReader
  bytes_scanned : Option Count

/-- `Length::len` for `ChunkObjectReader` (lines 378-382). -/
def ChunkObjectReader.len (r : ChunkObjectReader) : Nat :=
  r.object_reader.length

/-- `ChunkReader::get_read` (lines 387-395). The metric side effect is
returned as the second component: the sink, updated by `length` when
attached (the addition happens before the read is attempted). A failure of
the underlying reader is wrapped `io error → DataFusionError::IoError →
ParquetError::ArrowError` and returned, never swallowed. -/
def ChunkObjectReader.get_read (r : ChunkObjectReader) (start : Nat)
    (length : Nat) : Except ParquetError (List Nat) × Option Count :=
  let counter := r.bytes_scanned.map (fun m => m.add length)
  match r.object_reader.sync_chunk_reader start length with
  | .ok chunk => (.ok chunk, counter)
  | .error e =>
    (.error (.ArrowError (DataFusionError.IoError e).toString), counter)

/-- Whether an encoded statistics variant matches a declared arrow type, as
dispatched by the five typed arms of `summarize_min_max`. -/
def encodedMatches : ParquetStatistics → DataType → Bool
  | .Boolean _, .Boolean => true
  | .Int32 _, .Int32 => true
  | .Int64 _, .Int64 => true
  | .Float _, .Float32 => true
  | .Double _, .Float64 => true
  | _, _ => false

/-- Whether decoded statistics report that min/max are actually set; always
false on the variants `summarize_min_max` ignores. -/
def statHasMinMax : ParquetStatistics → Bool
  | .Boolean s => s.has_min_max_set
  | .Int32 s => s.has_min_max_set
  | .Int64 s => s.has_min_max_set
  | .Float s => s.has_min_max_set
  | .Double s => s.has_min_max_set
  | _ => false

theorem updateMinMax_isSome (max_values : List (Option MaxAccumulator))
    (min_values : List (Option MinAccumulator)) (i : Nat)
    (minV maxV : ScalarValue)
    (hmax : i < max_values.length) (hmin : i < min_values.length) :
    ∃ p, updateMinMax max_values min_values i minV maxV = some p ∧
      p.1.length = max_values.length ∧ p.2.length = min_values.length := by
  unfold updateMinMax
  rw [List.getElem?_eq_getElem hmax, List.getElem?_eq_getElem hmin]
  cases hmx : max_values[i] with
  | none =>
    cases hmn : min_values[i] with
    | none => exact ⟨(max_values, min_values), rfl, rfl, rfl⟩
    | some acc =>
      cases hup : acc.update_batch minV with
      | ok a =>
        exact ⟨(max_values, min_values.set i (some a)), by simp [hup], rfl,
          List.length_set ..⟩
      | error e =>
        exact ⟨(max_values, min_values.set i none), by simp [hup], rfl,
          List.length_set ..⟩
  | some acc =>
    cases hup : acc.update_batch maxV with
    | ok a =>
      cases hmn : min_values[i] with
      | none =>
        exact ⟨(max_values.set i (some a), min_values), by simp [hup],
          List.length_set .., rfl⟩
      | some acc2 =>
        cases hup2 : acc2.update_batch minV with
        | ok a2 =>
          exact ⟨(max_values.set i (some a), min_values.set i (some a2)),
            by simp [hup, hup2], List.length_set .., List.length_set ..⟩
        | error e2 =>
          exact ⟨(max_values.set i (some a), min_values.set i none),
            by simp [hup, hup2], List.length_set .., List.length_set ..⟩
    | error e =>
      cases hmn : min_values[i] with
      | none =>
        exact ⟨(max_values.set i none, min_values), by simp [hup],
          List.length_set .., rfl⟩
      | some acc2 =>
        cases hup2 : acc2.update_batch minV with
        | ok a2 =>
          exact ⟨(max_values.set i none, min_values.set i (some a2)),
            by simp [hup, hup2], List.length_set .., List.length_set ..⟩
        | error e2 =>
          exact ⟨(max_values.set i none, min_values.set i none),
            by simp [hup, hup2], List.length_set .., List.length_set ..⟩

theorem summarize_min_max_isSome (max_values : List (Option MaxAccumulator))
    (min_values : List (Option MinAccumulator)) (fields : List Field)
    (i : Nat) (stat : ParquetStatistics)
    (hf : i < fields.length) (hmax : i < max_values.length)
    (hmin : i < min_values.length) :
    ∃ p, summarize_min_max max_values min_values fields i stat = some p ∧
      p.1.length = max_values.length ∧ p.2.length = min_values.length := by
  cases stat <;>
    simp only [summarize_min_max, List.getElem?_eq_getElem hf] <;>
    first
      | exact ⟨(max_values, min_values), rfl, rfl, rfl⟩
      | (split_ifs with h1 h2 <;>
          first
            | exact updateMinMax_isSome max_values min_values i _ _ hmax hmin
            | exact ⟨(max_values, min_values), rfl, rfl, rfl⟩)

theorem set_preserves_none {β : Type} (l : List (Option β)) (i t : Nat)
    (x : Option β) (acc : β)
    (hi : l[i]? = some (some acc)) (ht : l[t]? = some none) :
    (l.set i x)[t]? = some none := by
  by_cases hit : i = t
  · subst hit; rw [hi] at ht; simp at ht
  · rw [List.getElem?_set_ne hit]; exact ht

/-- Result of the max-slot half of `updateMinMax` as a standalone value. -/
def appliedMax (max_values : List (Option MaxAccumulator)) (i : Nat)
    (maxV : ScalarValue) : Option MaxAccumulator → List (Option MaxAccumulator)
  | some acc =>
    match acc.update_batch maxV with
    | .ok a => max_values.set i (some a)
    | .error _ => max_values.set i none
  | none => max_values

/-- Result of the min-slot half of `updateMinMax` as a standalone value. -/
def appliedMin (min_values : List (Option MinAccumulator)) (i : Nat)
    (minV : ScalarValue) : Option MinAccumulator → List (Option MinAccumulator)
  | some acc =>
    match acc.update_batch minV with
    | .ok a => min_values.set i (some a)
    | .error _ => min_values.set i none
  | none => min_values

theorem updateMinMax_eq (max_values : List (Option MaxAccumulator))
    (min_values : List (Option MinAccumulator)) (i : Nat)
    (minV maxV : ScalarValue)
    (maxSlot : Option MaxAccumulator) (minSlot : Option MinAccumulator)
    (hmx : max_values[i]? = some maxSlot)
    (hmn : min_values[i]? = some minSlot) :
    updateMinMax max_values min_values i minV maxV =
      some (appliedMax max_values i maxV maxSlot,
            appliedMin min_values i minV minSlot) := by
  unfold updateMinMax
  rw [hmx, hmn]
  cases maxSlot with
  | none =>
    cases minSlot with
    | none => rfl
    | some acc2 => cases acc2.update_batch minV <;> rfl
  | some acc =>
    cases acc.update_batch maxV <;>
      cases minSlot with
      | none => rfl
      | some acc2 => cases acc2.update_batch minV <;> rfl

theorem appliedMax_preserves_none (max_values : List (Option MaxAccumulator))
    (i t : Nat) (maxV : ScalarValue) (maxSlot : Option MaxAccumulator)
    (hmx : max_values[i]? = some maxSlot)
    (ht : max_values[t]? = some none) :
    (appliedMax max_values i maxV maxSlot)[t]? = some none := by
  cases maxSlot with
  | none => exact ht
  | some acc =>
    simp only [appliedMax]
    cases acc.update_batch maxV <;> exact set_preserves_none _ _ _ _ _ hmx ht

theorem appliedMin_preserves_none (min_values : List (Option MinAccumulator))
    (i t : Nat) (minV : ScalarValue) (minSlot : Option MinAccumulator)
    (hmn : min_values[i]? = some minSlot)
    (ht : min_values[t]? = some none) :
    (appliedMin min_values i minV minSlot)[t]? = some none := by
  cases minSlot with
  | none => exact ht
  | some acc =>
    simp only [appliedMin]
    cases acc.update_batch minV <;> exact set_preserves_none _ _ _ _ _ hmn ht

theorem updateMinMax_preserves_none (max_values : List (Option MaxAccumulator))
    (min_values : List (Option MinAccumulator)) (i : Nat)
    (minV maxV : ScalarValue)
    (p : List (Option MaxAccumulator) × List (Option MinAccumulator)) (t : Nat)
    (h : updateMinMax max_values min_values i minV maxV = some p) :
    (max_values[t]? = some none → p.1[t]? = some none) ∧
    (min_values[t]? = some none → p.2[t]? = some none) := by
  cases hmx : max_values[i]? with
  | none =>
    have hnone : updateMinMax max_values min_values i minV maxV = none := by
      unfold updateMinMax; rw [hmx]
    rw [hnone] at h; simp at h
  | some maxSlot =>
    cases hmn : min_values[i]? with
    | none =>
      have hnone : updateMinMax max_values min_values i minV maxV = none := by
        unfold updateMinMax; rw [hmx, hmn]
      rw [hnone] at h; simp at h
    | some minSlot =>
      rw [updateMinMax_eq max_values min_values i minV maxV maxSlot minSlot hmx hmn] at h
      simp only [Option.some.injEq] at h
      subst h
      exact ⟨fun hmt => appliedMax_preserves_none _ _ _ _ _ hmx hmt,
             fun hnt => appliedMin_preserves_none _ _ _ _ _ hmn hnt⟩

theorem summarize_preserves_none (max_values : List (Option MaxAccumulator))
    (min_values : List (Option MinAccumulator)) (fields : List Field)
    (i : Nat) (stat : ParquetStatistics)
    (p : List (Option MaxAccumulator) × List (Option MinAccumulator)) (t : Nat)
    (h : summarize_min_max max_values min_values fields i stat = some p) :
    (max_values[t]? = some none → p.1[t]? = some none) ∧
    (min_values[t]? = some none → p.2[t]? = some none) := by
  cases stat with
  | Boolean s =>
    simp only [summarize_min_max] at h
    split at h
    next => simp at h
    next f heq =>
      split_ifs at h with h1 h2
      · exact updateMinMax_preserves_none _ _ _ _ _ _ _ h
      · simp only [Option.some.injEq] at h; subst h; exact ⟨id, id⟩
      · simp only [Option.some.injEq] at h; subst h; exact ⟨id, id⟩
  | Int32 s =>
    simp only [summarize_min_max] at h
    split at h
    next => simp at h
    next f heq =>
      split_ifs at h with h1 h2
      · exact updateMinMax_preserves_none _ _ _ _ _ _ _ h
      · simp only [Option.some.injEq] at h; subst h; exact ⟨id, id⟩
      · simp only [Option.some.injEq] at h; subst h; exact ⟨id, id⟩
  | Int64 s =>
    simp only [summarize_min_max] at h
    split at h
    next => simp at h
    next f heq =>
      split_ifs at h with h1 h2
      · exact updateMinMax_preserves_none _ _ _ _ _ _ _ h
      · simp only [Option.some.injEq] at h; subst h; exact ⟨id, id⟩
      · simp only [Option.some.injEq] at h; subst h; exact ⟨id, id⟩
  | Float s =>
    simp only [summarize_min_max] at h
    split at h
    next => simp at h
    next f heq =>
      split_ifs at h with h1 h2
      · exact updateMinMax_preserves_none _ _ _ _ _ _ _ h
      · simp only [Option.some.injEq] at h; subst h; exact ⟨id, id⟩
      · simp only [Option.some.injEq] at h; subst h; exact ⟨id, id⟩
  | Double s =>
    simp only [summarize_min_max] at h
    split at h
    next => simp at h
    next f heq =>
      split_ifs at h with h1 h2
      · exact updateMinMax_preserves_none _ _ _ _ _ _ _ h
      · simp only [Option.some.injEq] at h; subst h; exact ⟨id, id⟩
      · simp only [Option.some.injEq] at h; subst h; exact ⟨id, id⟩
  | Int96 n =>
    simp only [summarize_min_max, Option.some.injEq] at h
    subst h; exact ⟨id, id⟩
  | ByteArray n =>
    simp only [summarize_min_max, Option.some.injEq] at h
    subst h; exact ⟨id, id⟩
  | FixedLenByteArray n =>
    simp only [summarize_min_max, Option.some.injEq] at h
    subst h; exact ⟨id, id⟩

theorem summarize_min_max_unusable (max_values : List (Option MaxAccumulator))
    (min_values : List (Option MinAccumulator)) (fields : List Field)
    (i : Nat) (stat : ParquetStatistics) (f : Field)
    (hf : fields[i]? = some f)
    (hno : ¬(encodedMatches stat f.data_type = true ∧ statHasMinMax stat = true)) :
    summarize_min_max max_values min_values fields i stat
      = some (max_values, min_values) := by
  cases stat with
  | Boolean s =>
    simp only [summarize_min_max, hf]
    by_cases h1 : f.data_type = DataType.Boolean
    · rw [if_pos h1]
      have h2 : s.has_min_max_set = false := by
        cases hs : s.has_min_max_set
        · rfl
        · exact absurd ⟨by simp [encodedMatches, h1], by simp [statHasMinMax, hs]⟩ hno
      rw [h2]; simp
    · rw [if_neg h1]
  | Int32 s =>
    simp only [summarize_min_max, hf]
    by_cases h1 : f.data_type = DataType.Int32
    · rw [if_pos h1]
      have h2 : s.has_min_max_set = false := by
        cases hs : s.has_min_max_set
        · rfl
        · exact absurd ⟨by simp [encodedMatches, h1], by simp [statHasMinMax, hs]⟩ hno
      rw [h2]; simp
    · rw [if_neg h1]
  | Int64 s =>
    simp only [summarize_min_max, hf]
    by_cases h1 : f.data_type = DataType.Int64
    · rw [if_pos h1]
      have h2 : s.has_min_max_set = false := by
        cases hs : s.has_min_max_set
        · rfl
        · exact absurd ⟨by simp [encodedMatches, h1], by simp [statHasMinMax, hs]⟩ hno
      rw [h2]; simp
    · rw [if_neg h1]
  | Float s =>
    simp only [summarize_min_max, hf]
    by_cases h1 : f.data_type = DataType.Float32
    · rw [if_pos h1]
      have h2 : s.has_min_max_set = false := by
        cases hs : s.has_min_max_set
        · rfl
        · exact absurd ⟨by simp [encodedMatches, h1], by simp [statHasMinMax, hs]⟩ hno
      rw [h2]; simp
    · rw [if_neg h1]
  | Double s =>
    simp only [summarize_min_max, hf]
    by_cases h1 : f.data_type = DataType.Float64
    · rw [if_pos h1]
      have h2 : s.has_min_max_set = false := by
        cases hs : s.has_min_max_set
        · rfl
        · exact absurd ⟨by simp [encodedMatches, h1], by simp [statHasMinMax, hs]⟩ hno
      rw [h2]; simp
    · rw [if_neg h1]
  | Int96 n => rfl
  | ByteArray n => rfl
  | FixedLenByteArray n => rfl

theorem foldlM_option_total {α β : Type} (f : β → α → Option β) (P : β → Prop)
    (l : List α) (b : β)
    (hstep : ∀ x a, a ∈ l → P x → ∃ y, f x a = some y ∧ P y)
    (hb : P b) : ∃ b', l.foldlM f b = some b' ∧ P b' := by
  induction l generalizing b with
  | nil => exact ⟨b, rfl, hb⟩
  | cons a l ih =>
    obtain ⟨y, hy, hPy⟩ := hstep b a (by simp) hb
    obtain ⟨b', hb', hPb'⟩ := ih y (fun x a2 ha2 hx => hstep x a2 (by simp [ha2]) hx) hPy
    refine ⟨b', ?_, hPb'⟩
    rw [List.foldlM_cons, hy]
    simpa using hb'

theorem foldlM_option_preserves {α β : Type} (f : β → α → Option β) (P : β → Prop)
    (l : List α) (b b' : β)
    (hstep : ∀ x y a, f x a = some y → P x → P y)
    (hfold : l.foldlM f b = some b') (hb : P b) : P b' := by
  induction l generalizing b with
  | nil => simp only [List.foldlM_nil] at hfold; cases hfold; exact hb
  | cons a l ih =>
    rw [List.foldlM_cons] at hfold
    cases hfa : f b a with
    | none => rw [hfa] at hfold; simp at hfold
    | some y =>
      rw [hfa] at hfold
      simp only [Option.bind_eq_bind, Option.some_bind] at hfold
      exact ih y hfold (hstep b y a hfa hb)

theorem processOneColumn_isSome (table_schema file_schema : Schema)
    (column_stats : List (Nat × Nat × ParquetStatistics)) (num_rows : Nat)
    (acc : List Nat × List (Option MaxAccumulator) × List (Option MinAccumulator))
    (t : Nat)
    (ht : t < table_schema.fields.length)
    (h1 : acc.1.length = table_schema.fields.length)
    (h2 : acc.2.1.length = table_schema.fields.length)
    (h3 : acc.2.2.length = table_schema.fields.length) :
    ∃ acc', processOneColumn table_schema file_schema column_stats num_rows acc t
        = some acc' ∧
      acc'.1.length = table_schema.fields.length ∧
      acc'.2.1.length = table_schema.fields.length ∧
      acc'.2.2.length = table_schema.fields.length := by
  unfold processOneColumn
  cases hmap : map_column_index table_schema t file_schema with
  | none =>
    exact ⟨(acc.1.set t ((acc.1[t]?.getD 0) + num_rows), acc.2.1, acc.2.2), rfl,
      by simp [List.length_set, h1], h2, h3⟩
  | some file_idx =>
    cases hlook : lookupStat column_stats file_idx with
    | none =>
      refine ⟨acc, ?_, h1, h2, h3⟩
      simp only [hlook]
    | some pr =>
      obtain ⟨nc, stats⟩ := pr
      obtain ⟨p, hp, hp1, hp2⟩ := summarize_min_max_isSome acc.2.1 acc.2.2
        table_schema.fields t stats ht (by omega) (by omega)
      refine ⟨(acc.1.set t ((acc.1[t]?.getD 0) + nc), p.1, p.2), ?_, ?_, ?_, ?_⟩
      · simp only [hlook, hp]
      · simp [List.length_set, h1]
      · rw [hp1]; exact h2
      · rw [hp2]; exact h3

theorem processOneColumn_preserves_none (table_schema file_schema : Schema)
    (column_stats : List (Nat × Nat × ParquetStatistics)) (num_rows : Nat)
    (acc acc' : List Nat × List (Option MaxAccumulator) × List (Option MinAccumulator))
    (t j : Nat)
    (h : processOneColumn table_schema file_schema column_stats num_rows acc t
        = some acc') :
    (acc.2.1[j]? = some none → acc'.2.1[j]? = some none) ∧
    (acc.2.2[j]? = some none → acc'.2.2[j]? = some none) := by
  unfold processOneColumn at h
  cases hmap : map_column_index table_schema t file_schema with
  | none =>
    rw [hmap] at h
    simp only [Option.some.injEq] at h
    subst h
    exact ⟨id, id⟩
  | some file_idx =>
    rw [hmap] at h
    cases hlook : lookupStat column_stats file_idx with
    | none =>
      simp only [hlook, Option.some.injEq] at h
      subst h
      exact ⟨id, id⟩
    | some pr =>
      obtain ⟨nc, stats⟩ := pr
      simp only [hlook] at h
      cases hsum : summarize_min_max acc.2.1 acc.2.2 table_schema.fields t stats with
      | none => rw [hsum] at h; simp at h
      | some p =>
        rw [hsum] at h
        simp only [Option.some.injEq] at h
        subst h
        exact summarize_preserves_none acc.2.1 acc.2.2 table_schema.fields t stats p j hsum

theorem processRowGroup_spec (table_schema file_schema : Schema)
    (st : StatsState) (rg : RowGroupMetadata)
    (h1 : st.null_counts.length = table_schema.fields.length)
    (h2 : st.max_values.length = table_schema.fields.length)
    (h3 : st.min_values.length = table_schema.fields.length) :
    ∃ st', processRowGroup table_schema file_schema st rg = some st' ∧
      st'.null_counts.length = table_schema.fields.length ∧
      st'.max_values.length = table_schema.fields.length ∧
      st'.min_values.length = table_schema.fields.length ∧
      st'.num_rows = st.num_rows + rg.num_rows ∧
      st'.total_byte_size = st.total_byte_size + rg.total_byte_size ∧
      st'.has_statistics
        = (st.has_statistics || rg.columns.any (fun c => c.statistics.isSome)) := by
  simp only [processRowGroup]
  split_ifs with hb
  · obtain ⟨res, hres, k1, k2, k3⟩ := foldlM_option_total
      (processOneColumn table_schema file_schema (columnStatsOf rg)
        (st.num_rows + rg.num_rows))
      (fun acc => acc.1.length = table_schema.fields.length ∧
        acc.2.1.length = table_schema.fields.length ∧
        acc.2.2.length = table_schema.fields.length)
      (List.range st.null_counts.length)
      (st.null_counts, st.max_values, st.min_values)
      (fun x a ha hx => by
        obtain ⟨y, hy, j1, j2, j3⟩ := processOneColumn_isSome table_schema
          file_schema (columnStatsOf rg) (st.num_rows + rg.num_rows) x a
          (by rw [← h1]; exact List.mem_range.mp ha) hx.1 hx.2.1 hx.2.2
        exact ⟨y, hy, j1, j2, j3⟩)
      ⟨h1, h2, h3⟩
    rw [hres]
    exact ⟨⟨st.num_rows + rg.num_rows, st.total_byte_size + rg.total_byte_size,
      res.1, res.2.1, res.2.2,
      st.has_statistics || rg.columns.any (fun c => c.statistics.isSome)⟩,
      rfl, k1, k2, k3, rfl, rfl, rfl⟩
  · exact ⟨⟨st.num_rows + rg.num_rows, st.total_byte_size + rg.total_byte_size,
      st.null_counts, st.max_values, st.min_values,
      st.has_statistics || rg.columns.any (fun c => c.statistics.isSome)⟩,
      rfl, h1, h2, h3, rfl, rfl, rfl⟩

theorem processRowGroup_preserves_none (table_schema file_schema : Schema)
    (st st' : StatsState) (rg : RowGroupMetadata) (t : Nat)
    (h : processRowGroup table_schema file_schema st rg = some st') :
    (st.max_values[t]? = some none → st'.max_values[t]? = some none) ∧
    (st.min_values[t]? = some none → st'.min_values[t]? = some none) := by
  simp only [processRowGroup] at h
  split_ifs at h with hb
  · cases hfold : (List.range st.null_counts.length).foldlM
        (processOneColumn table_schema file_schema (columnStatsOf rg)
          (st.num_rows + rg.num_rows))
        (st.null_counts, st.max_values, st.min_values) with
    | none => rw [hfold] at h; simp at h
    | some res =>
      rw [hfold] at h
      simp only [Option.some.injEq] at h
      subst h
      have hpres := foldlM_option_preserves
        (processOneColumn table_schema file_schema (columnStatsOf rg)
          (st.num_rows + rg.num_rows))
        (fun acc => (st.max_values[t]? = some none → acc.2.1[t]? = some none) ∧
          (st.min_values[t]? = some none → acc.2.2[t]? = some none))
        (List.range st.null_counts.length)
        (st.null_counts, st.max_values, st.min_values) res
        (fun x y a hxy hPx =>
          ⟨fun hmt => (processOneColumn_preserves_none table_schema file_schema
              (columnStatsOf rg) (st.num_rows + rg.num_rows) x y a t hxy).1 (hPx.1 hmt),
           fun hnt => (processOneColumn_preserves_none table_schema file_schema
              (columnStatsOf rg) (st.num_rows + rg.num_rows) x y a t hxy).2 (hPx.2 hnt)⟩)
        hfold ⟨id, id⟩
      exact hpres
  · simp only [Option.some.injEq] at h
    subst h
    exact ⟨id, id⟩

theorem rowGroups_fold_spec (table_schema file_schema : Schema)
    (rgs : List RowGroupMetadata) (st : StatsState)
    (h1 : st.null_counts.length = table_schema.fields.length)
    (h2 : st.max_values.length = table_schema.fields.length)
    (h3 : st.min_values.length = table_schema.fields.length) :
    ∃ st', rgs.foldlM (processRowGroup table_schema file_schema) st = some st' ∧
      st'.null_counts.length = table_schema.fields.length ∧
      st'.max_values.length = table_schema.fields.length ∧
      st'.min_values.length = table_schema.fields.length ∧
      st'.num_rows = st.num_rows + (rgs.map RowGroupMetadata.num_rows).sum ∧
      st'.total_byte_size
        = st.total_byte_size + (rgs.map RowGroupMetadata.total_byte_size).sum ∧
      st'.has_statistics
        = (st.has_statistics
            || rgs.any (fun rg => rg.columns.any (fun c => c.statistics.isSome))) := by
  induction rgs generalizing st with
  | nil =>
    exact ⟨st, rfl, h1, h2, h3, by simp, by simp, by simp⟩
  | cons rg rgs ih =>
    obtain ⟨st1, hst1, k1, k2, k3, knr, kbs, khs⟩ :=
      processRowGroup_spec table_schema file_schema st rg h1 h2 h3
    obtain ⟨st', hst', m1, m2, m3, mnr, mbs, mhs⟩ := ih st1 k1 k2 k3
    refine ⟨st', ?_, m1, m2, m3, ?_, ?_, ?_⟩
    · rw [List.foldlM_cons, hst1]
      simpa using hst'
    · rw [mnr, knr]; simp [Nat.add_assoc]
    · rw [mbs, kbs]; simp [Nat.add_assoc]
    · rw [mhs, khs]; simp [Bool.or_assoc]

theorem initState_lengths (table_schema : Schema) :
    (initState table_schema).null_counts.length = table_schema.fields.length ∧
    (initState table_schema).max_values.length = table_schema.fields.length ∧
    (initState table_schema).min_values.length = table_schema.fields.length := by
  refine ⟨?_, ?_, ?_⟩ <;> simp [initState, create_max_min_accs]

/-- Claim C10: `summarize_min_max` indexes `fields[i]`, `max_values[i]` and
`min_values[i]` without bounds checks — an out-of-range index on any of the
three slices is a panic (modelled `none`) — and under `fetch_statistics`
the index always stays in range, so the per-file statistics computation
never panics: it returns a value for every decoded file. -/
theorem summarize_min_max_index_safety :
    (∀ (max_values : List (Option MaxAccumulator))
       (min_values : List (Option MinAccumulator))
       (fields : List Field) (i : Nat) (s : TypedStat Int),
        fields.length ≤ i →
        summarize_min_max max_values min_values fields i
          (ParquetStatistics.Int32 s) = none) ∧
    (∀ (min_values : List (Option MinAccumulator))
       (fields : List Field) (i : Nat) (s : TypedStat Int) (f : Field),
        fields[i]? = some f → f.data_type = DataType.Int32 →
        s.has_min_max_set = true →
        summarize_min_max [] min_values fields i
          (ParquetStatistics.Int32 s) = none) ∧
    (∀ (file : DecodedFile) (table_schema : Schema),
        ∃ stats, fetchStatsFile file table_schema = some stats) := by
  refine ⟨?_, ?_, ?_⟩
  · intro max_values min_values fields i s hlen
    simp only [summarize_min_max, List.getElem?_eq_none hlen]
  · intro min_values fields i s f hf hdt hset
    simp only [summarize_min_max, hf, hdt, hset]
    simp [updateMinMax]
  · intro file table_schema
    obtain ⟨hi1, hi2, hi3⟩ := initState_lengths table_schema
    obtain ⟨final, hfold, hrest⟩ := rowGroups_fold_spec table_schema
      file.file_schema file.metadata.row_groups (initState table_schema) hi1 hi2 hi3
    refine ⟨{ num_rows := some final.num_rows
            , total_byte_size := some final.total_byte_size
            , column_statistics :=
                if final.has_statistics then
                  some (get_col_stats table_schema final.null_counts
                    final.max_values final.min_values)
                else none
            , is_exact := true }, ?_⟩
    unfold fetchStatsFile
    rw [hfold]

/-- Claim C9: accumulator disabling is one-way within one file's processing:
once a `max_values` or `min_values` slot is `none`, every later row group
processed by the fold leaves it `none`; a disabled slot is never replaced
by a fresh accumulator. -/
theorem accumulator_disabled_one_way (table_schema file_schema : Schema)
    (rgs : List RowGroupMetadata) (st st' : StatsState) (t : Nat)
    (hfold : rgs.foldlM (processRowGroup table_schema file_schema) st
      = some st') :
    (st.max_values[t]? = some none → st'.max_values[t]? = some none) ∧
    (st.min_values[t]? = some none → st'.min_values[t]? = some none) :=
  foldlM_option_preserves (processRowGroup table_schema file_schema)
    (fun x => (st.max_values[t]? = some none → x.max_values[t]? = some none) ∧
      (st.min_values[t]? = some none → x.min_values[t]? = some none))
    rgs st st'
    (fun x y rg hxy hPx =>
      ⟨fun hmt => (processRowGroup_preserves_none table_schema file_schema
          x y rg t hxy).1 (hPx.1 hmt),
       fun hnt => (processRowGroup_preserves_none table_schema file_schema
          x y rg t hxy).2 (hPx.2 hnt)⟩)
    hfold ⟨id, id⟩

/-- Claim C4: `summarize_min_max` touches the accumulators of column `i`
only when the encoded statistic variant matches the declared type of field
`i` and the statistic reports `has_min_max_set`; in every other case —
mismatched variant, unset min/max, or one of the ignored encoded variants —
both accumulator lists are returned exactly as they were. -/
theorem summarize_min_max_frame (max_values : List (Option MaxAccumulator))
    (min_values : List (Option MinAccumulator)) (fields : List Field)
    (i : Nat) (stat : ParquetStatistics) (f : Field)
    (hf : fields[i]? = some f)
    (hno : ¬(encodedMatches stat f.data_type = true ∧ statHasMinMax stat = true)) :
    summarize_min_max max_values min_values fields i stat
      = some (max_values, min_values) :=
  summarize_min_max_unusable max_values min_values fields i stat f hf hno

/-- Claim C5: for every successfully decoded file, `fetch_statistics`
returns `num_rows` and `total_byte_size` as the sums over the file's row
groups and `is_exact = true`; when no row group reports statistics on any
column, `column_statistics` is `none` while the totals are still populated;
and a footer-decode failure is the sole error path. -/
theorem fetch_statistics_shape (file : DecodedFile) (table_schema : Schema) :
    (∀ e, fetch_statistics (Except.error e) table_schema = Except.error e) ∧
    ∃ stats, fetch_statistics (Except.ok file) table_schema
        = Except.ok (some stats) ∧
      stats.num_rows
        = some ((file.metadata.row_groups.map RowGroupMetadata.num_rows).sum) ∧
      stats.total_byte_size
        = some ((file.metadata.row_groups.map RowGroupMetadata.total_byte_size).sum) ∧
      stats.is_exact = true ∧
      ((∀ rg ∈ file.metadata.row_groups, ∀ c ∈ rg.columns, c.statistics = none) →
        stats.column_statistics = none) := by
  refine ⟨fun e => rfl, ?_⟩
  obtain ⟨hi1, hi2, hi3⟩ := initState_lengths table_schema
  obtain ⟨final, hfold, m1, m2, m3, mnr, mbs, mhs⟩ := rowGroups_fold_spec
    table_schema file.file_schema file.metadata.row_groups
    (initState table_schema) hi1 hi2 hi3
  refine ⟨{ num_rows := some final.num_rows
          , total_byte_size := some final.total_byte_size
          , column_statistics :=
              if final.has_statistics then
                some (get_col_stats table_schema final.null_counts
                  final.max_values final.min_values)
              else none
          , is_exact := true }, ?_, ?_, ?_, rfl, ?_⟩
  · show Except.ok (fetchStatsFile file table_schema) = _
    unfold fetchStatsFile
    rw [hfold]
  · rw [mnr]
    simp [initState]
  · rw [mbs]
    simp [initState]
  · intro hnone
    have hfalse : final.has_statistics = false := by
      rw [mhs]
      simp only [initState, Bool.false_or, List.any_eq_false, Bool.not_eq_true]
      intro rg hrg c hc
      simp [hnone rg hrg c hc]
    simp [hfalse]

/-- Claim C1: whenever `fetch_statistics` succeeds on a decoded footer and
`column_statistics` is present, its length equals the table schema's field
count, and entry `t` is assembled from `null_counts[t]` and the min/max
accumulators created for table field `t`. -/
theorem column_statistics_alignment
    (footer : Except ParquetError DecodedFile) (table_schema : Schema)
    (file : DecodedFile) (stats : Statistics) (cs : List ColumnStatistics)
    (hfile : footer = Except.ok file)
    (hok : fetch_statistics footer table_schema = Except.ok (some stats))
    (hcs : stats.column_statistics = some cs) :
    cs.length = table_schema.fields.length ∧
    ∃ final : StatsState,
      file.metadata.row_groups.foldlM
        (processRowGroup table_schema file.file_schema) (initState table_schema)
        = some final ∧
      final.null_counts.length = table_schema.fields.length ∧
      final.max_values.length = table_schema.fields.length ∧
      final.min_values.length = table_schema.fields.length ∧
      ∀ t, t < table_schema.fields.length →
        cs[t]? = some (colStatAt final.null_counts final.max_values
          final.min_values t) := by
  subst hfile
  obtain ⟨hi1, hi2, hi3⟩ := initState_lengths table_schema
  obtain ⟨final, hfold, m1, m2, m3, mnr, mbs, mhs⟩ := rowGroups_fold_spec
    table_schema file.file_schema file.metadata.row_groups
    (initState table_schema) hi1 hi2 hi3
  simp only [fetch_statistics] at hok
  unfold fetchStatsFile at hok
  rw [hfold] at hok
  simp only [Except.ok.injEq, Option.some.injEq] at hok
  subst hok
  have hcs2 : (if final.has_statistics = true then
      some (get_col_stats table_schema final.null_counts final.max_values
        final.min_values)
    else none) = some cs := hcs
  split_ifs at hcs2 with hhs
  · simp only [Option.some.injEq] at hcs2
    subst hcs2
    refine ⟨?_, final, hfold, m1, m2, m3, ?_⟩
    · simp [get_col_stats]
    · intro t ht
      simp [get_col_stats, List.getElem?_map, List.getElem?_range ht]

/-- Claim C3 (amended): a row group whose decoded statistic for a resolved
column has an encoded type different from the table's declared type leaves
the column's min/max accumulators exactly unchanged and raises no error,
but its running null count is still increased by the statistic's reported
null count. -/
theorem type_mismatch_skips_accumulation
    (table_schema file_schema : Schema)
    (column_stats : List (Nat × Nat × ParquetStatistics)) (num_rows : Nat)
    (null_counts : List Nat) (max_values : List (Option MaxAccumulator))
    (min_values : List (Option MinAccumulator))
    (t file_idx null_count : Nat) (stat : ParquetStatistics) (f : Field)
    (hmap : map_column_index table_schema t file_schema = some file_idx)
    (hlook : lookupStat column_stats file_idx = some (null_count, stat))
    (hf : table_schema.fields[t]? = some f)
    (hmm : encodedMatches stat f.data_type = false) :
    processOneColumn table_schema file_schema column_stats num_rows
      (null_counts, max_values, min_values) t
      = some (null_counts.set t ((null_counts[t]?.getD 0) + null_count),
              max_values, min_values) := by
  have hsum := summarize_min_max_unusable max_values min_values
    table_schema.fields t stat f hf (by simp [hmm])
  unfold processOneColumn
  rw [hmap]
  simp only [hlook, hsum]

/-- Claim C3 counterexample: table column `c` is declared `Int32` but the
file's row group carries `Int64`-encoded statistics for it with a reported
null count of 1. Processing the row group leaves the accumulators
unchanged and raises no error, but the column's null count comes out as 1,
not the unchanged 0 the claim asserts. -/
theorem c3_null_count_updated_on_mismatch :
    (fetchStatsFile
        ⟨⟨[⟨"c", DataType.Int32, true⟩]⟩,
         ⟨[⟨2, 10, [⟨some (ParquetStatistics.Int64 ⟨1, 5, 1, true⟩)⟩]⟩]⟩⟩
        ⟨[⟨"c", DataType.Int32, true⟩]⟩).map
      (fun s => (s.column_statistics.map (fun cs => cs.map ColumnStatistics.null_count),
                 s.column_statistics.map (fun cs => cs.map ColumnStatistics.max_value),
                 s.column_statistics.map (fun cs => cs.map ColumnStatistics.min_value)))
      = some (some [some 1], some [none], some [none]) ∧ (1 : Nat) ≠ 0 := by
  constructor
  · rfl
  · decide

/-- Claim C2 failing input: the table declares a column `missing` that is
absent from a two-row-group file (3 rows per row group, statistics present
on column `a`). The absent column's null count comes out as 9 — each row
group adds the cumulative running row count (3, then 6) — although the
file's total row count is 6. -/
theorem c2_absent_column_null_count_overcounts :
    (fetchStatsFile
        ⟨⟨[⟨"a", DataType.Int32, true⟩]⟩,
         ⟨[⟨3, 10, [⟨some (ParquetStatistics.Int32 ⟨0, 0, 0, false⟩)⟩]⟩,
           ⟨3, 10, [⟨some (ParquetStatistics.Int32 ⟨0, 0, 0, false⟩)⟩]⟩]⟩⟩
        ⟨[⟨"a", DataType.Int32, true⟩, ⟨"missing", DataType.Int32, true⟩]⟩).map
      (fun s => (s.num_rows,
        s.column_statistics.map (fun cs => cs.map ColumnStatistics.null_count)))
      = some (some 6, some [some 0, some 9]) ∧ (9 : Nat) ≠ 6 := by
  constructor
  · rfl
  · decide

/-- Claim C6: `infer_schema` folds the readers in encounter order starting
from the empty schema; the first stream read error, per-file decode error
or merge incompatibility fails the whole inference regardless of the
remaining readers — no partial or best-effort schema is returned. -/
theorem infer_schema_first_error_aborts
    (pre post : List InferItem) (bad : InferItem) (acc : Schema)
    (e : DataFusionError)
    (hpre : pre.foldlM inferStep Schema.empty = Except.ok acc)
    (hbad : inferStep acc bad = Except.error e) :
    (∀ readers : List InferItem,
      infer_schema readers = readers.foldlM inferStep Schema.empty) ∧
    infer_schema pre = Except.ok acc ∧
    infer_schema (pre ++ bad :: post) = Except.error e := by
  refine ⟨fun readers => rfl, hpre, ?_⟩
  unfold infer_schema
  rw [List.foldlM_append, hpre]
  show List.foldlM inferStep acc (bad :: post) = Except.error e
  rw [List.foldlM_cons, hbad]
  rfl

/-- Claim C7: every successful `get_read(start, length)` call adds exactly
`length` — the number of bytes requested from the underlying reader — to
the attached byte-count sink, and adds nothing when no sink is attached. -/
theorem get_read_meters_requested_bytes (r : ChunkObjectReader)
    (start length : Nat) (chunk : List Nat)
    (hok : r.object_reader.sync_chunk_reader start length = Except.ok chunk) :
    (∀ c, r.bytes_scanned = some c →
      (r.get_read start length).2 = some (Count.add c length)) ∧
    (r.bytes_scanned = none → (r.get_read start length).2 = none) := by
  unfold ChunkObjectReader.get_read
  rw [hok]
  constructor
  · intro c hc
    rw [hc]
    rfl
  · intro hc
    rw [hc]
    rfl

/-- Claim C8: `get_read` fails exactly when the underlying reader's range
read fails, wrapping the failure as a decode-layer (Parquet) error; a
success is returned as-is, so a failure is never swallowed into a success
value. -/
theorem get_read_wraps_underlying_failure (r : ChunkObjectReader)
    (start length : Nat) :
    (∀ msg, r.object_reader.sync_chunk_reader start length = Except.error msg →
      (r.get_read start length).1
        = Except.error (ParquetError.ArrowError
            ((DataFusionError.IoError msg).toString))) ∧
    (∀ chunk, r.object_reader.sync_chunk_reader start length = Except.ok chunk →
      (r.get_read start length).1 = Except.ok chunk) := by
  constructor
  · intro msg hmsg
    unfold ChunkObjectReader.get_read
    rw [hmsg]
  · intro chunk hok
    unfold ChunkObjectReader.get_read
    rw [hok]

def c1file : DecodedFile :=
  ⟨⟨[⟨"a", DataType.Int32, true⟩]⟩,
   ⟨[⟨1, 5, [⟨some (ParquetStatistics.Int32 ⟨0, 0, 1, false⟩)⟩]⟩]⟩⟩

def c1table : Schema := ⟨[⟨"a", DataType.Int32, true⟩]⟩

def c1stats : Statistics :=
  ⟨some 1, some 5, some [⟨some 1, none, none, none⟩], true⟩

def c1cs : List ColumnStatistics := [⟨some 1, none, none, none⟩]

theorem column_statistics_alignment_witness :
    c1cs.length = c1table.fields.length :=
  (column_statistics_alignment (Except.ok c1file) c1table c1file c1stats c1cs
    rfl rfl rfl).1

def c5table : Schema := ⟨[⟨"a", DataType.Int32, true⟩]⟩

def c5file : DecodedFile :=
  ⟨⟨[⟨"a", DataType.Int32, true⟩]⟩, ⟨[⟨3, 100, [⟨none⟩]⟩]⟩⟩

theorem fetch_statistics_shape_witness :
    fetch_statistics (Except.error (ParquetError.General "bad footer")) c5table
      = Except.error (ParquetError.General "bad footer") ∧
    ∃ stats, fetch_statistics (Except.ok c5file) c5table
        = Except.ok (some stats) ∧
      stats.num_rows = some 3 ∧ stats.column_statistics = none := by
  obtain ⟨herr, stats, hok, hnr, hbs, hex, hnone⟩ :=
    fetch_statistics_shape c5file c5table
  refine ⟨herr _, stats, hok, ?_, hnone (by decide)⟩
  rw [hnr]
  rfl

def c10table : Schema := ⟨[⟨"a", DataType.Int64, true⟩]⟩

def c10file : DecodedFile := ⟨⟨[]⟩, ⟨[]⟩⟩

theorem summarize_min_max_index_safety_witness :
    summarize_min_max [] [] [] 0 (ParquetStatistics.Int32 ⟨0, 0, 0, false⟩)
      = none ∧
    summarize_min_max [] [some ⟨ScalarValue.int32 none⟩]
      [⟨"c", DataType.Int32, true⟩] 0 (ParquetStatistics.Int32 ⟨0, 0, 0, true⟩)
      = none ∧
    ∃ stats, fetchStatsFile c10file c10table = some stats :=
  ⟨summarize_min_max_index_safety.1 [] [] [] 0 ⟨0, 0, 0, false⟩ (by decide),
   summarize_min_max_index_safety.2.1 [some ⟨ScalarValue.int32 none⟩]
     [⟨"c", DataType.Int32, true⟩] 0 ⟨0, 0, 0, true⟩
     ⟨"c", DataType.Int32, true⟩ rfl rfl rfl,
   summarize_min_max_index_safety.2.2 c10file c10table⟩

def c9t : Schema := ⟨[⟨"c", DataType.Int32, true⟩]⟩

def c9rgs : List RowGroupMetadata :=
  [⟨1, 1, [⟨some (ParquetStatistics.Int32 ⟨0, 1, 0, true⟩)⟩]⟩]

def c9st : StatsState := ⟨0, 0, [0], [none], [none], false⟩

theorem accumulator_disabled_one_way_witness :
    ((⟨1, 1, [0], [none], [none], true⟩ : StatsState).max_values[0]?
      = some none) ∧
    ((⟨1, 1, [0], [none], [none], true⟩ : StatsState).min_values[0]?
      = some none) :=
  ⟨(accumulator_disabled_one_way c9t c9t c9rgs c9st
      ⟨1, 1, [0], [none], [none], true⟩ 0 rfl).1 rfl,
   (accumulator_disabled_one_way c9t c9t c9rgs c9st
      ⟨1, 1, [0], [none], [none], true⟩ 0 rfl).2 rfl⟩

theorem summarize_min_max_frame_witness :
    summarize_min_max [some ⟨ScalarValue.int32 none⟩]
      [some ⟨ScalarValue.int32 none⟩] [⟨"c", DataType.Int32, true⟩] 0
      (ParquetStatistics.Int64 ⟨1, 5, 0, true⟩)
      = some ([some ⟨ScalarValue.int32 none⟩], [some ⟨ScalarValue.int32 none⟩]) :=
  summarize_min_max_frame [some ⟨ScalarValue.int32 none⟩]
    [some ⟨ScalarValue.int32 none⟩] [⟨"c", DataType.Int32, true⟩] 0
    (ParquetStatistics.Int64 ⟨1, 5, 0, true⟩) ⟨"c", DataType.Int32, true⟩
    rfl (by decide)

theorem type_mismatch_skips_accumulation_witness :
    processOneColumn ⟨[⟨"c", DataType.Int32, true⟩]⟩
      ⟨[⟨"c", DataType.Int32, true⟩]⟩
      [(0, 1, ParquetStatistics.Int64 ⟨1, 5, 1, true⟩)] 2
      ([0], [some ⟨ScalarValue.int32 none⟩], [some ⟨ScalarValue.int32 none⟩]) 0
      = some ([1], [some ⟨ScalarValue.int32 none⟩],
              [some ⟨ScalarValue.int32 none⟩]) :=
  type_mismatch_skips_accumulation ⟨[⟨"c", DataType.Int32, true⟩]⟩
    ⟨[⟨"c", DataType.Int32, true⟩]⟩
    [(0, 1, ParquetStatistics.Int64 ⟨1, 5, 1, true⟩)] 2
    [0] [some ⟨ScalarValue.int32 none⟩] [some ⟨ScalarValue.int32 none⟩]
    0 0 1 (ParquetStatistics.Int64 ⟨1, 5, 1, true⟩) ⟨"c", DataType.Int32, true⟩
    rfl rfl rfl rfl

def c6pre : List InferItem :=
  [InferItem.reader (Except.ok ⟨[⟨"a", DataType.Int32, true⟩]⟩)]

def c6bad : InferItem :=
  InferItem.reader (Except.ok ⟨[⟨"a", DataType.Int64, true⟩]⟩)

theorem infer_schema_first_error_aborts_witness :
    infer_schema (c6pre ++ c6bad :: [InferItem.reader (Except.ok Schema.empty)])
      = Except.error (DataFusionError.ArrowError (ArrowError.SchemaError "a")) :=
  (infer_schema_first_error_aborts c6pre
    [InferItem.reader (Except.ok Schema.empty)] c6bad
    ⟨[⟨"a", DataType.Int32, true⟩]⟩
    (DataFusionError.ArrowError (ArrowError.SchemaError "a")) rfl rfl).2.2

def c7reader : ChunkObjectReader :=
  ⟨⟨10, fun _ _ => Except.ok [1, 2, 3]⟩, some ⟨7⟩⟩

theorem get_read_meters_requested_bytes_witness :
    (c7reader.get_read 2 3).2 = some (Count.add ⟨7⟩ 3) :=
  (get_read_meters_requested_bytes c7reader 2 3 [1, 2, 3] rfl).1 ⟨7⟩ rfl

def c8reader : ChunkObjectReader :=
  ⟨⟨10, fun _ _ => Except.error "boom"⟩, none⟩

theorem get_read_wraps_underlying_failure_witness :
    (c8reader.get_read 0 4).1
      = Except.error (ParquetError.ArrowError
          ((DataFusionError.IoError "boom").toString)) :=
  (get_read_wraps_underlying_failure c8reader 0 4).1 "boom" rfl

end Parquet
